import Mathlib

/-!
Shallow embedding of `proj`, a project-local build helper.

The repository's command-line orchestrator (`src/proj/__main__.py`) is
embedded as pure trace-producing functions: each `main_*` entry point is a
function from an environment (the results of the external collaborators it
calls: configuration lookup, filesystem queries, the dtgen core) and its
parsed arguments to the list of observable events it performs together with
an optional raised error.

The dtgen core (schema parser, emitter, staleness oracle, generation
engine, outdated-output finder) is not part of the repository sources
available here, so those components are modelled from the specification;
each such definition carries a doc comment starting `Modelled from the
spec:`.
-/

/-- Filesystem paths, abbreviated as strings (Python `pathlib.Path`). -/
abbrev FsPath := String

/-- The effective configuration object produced by `get_config`
(`src/proj/config_file`), restricted to the fields `__main__.py` reads. -/
structure Config where
  build_dir : FsPath
  base : FsPath
  cmake_flags : List (String × String)
  cmake_require_shell : Bool
  fix_compile_commands : Bool
  build_targets : List String
  test_targets : List String
deriving DecidableEq, Repr

/-- Observable actions performed by the orchestrator, in program order. -/
inductive Event where
  | getConfigRoot (path : FsPath)
  | getConfig (path : FsPath)
  | runDtgen (root : FsPath) (config : Config) (files : Option (List FsPath)) (force : Bool)
  | findOutdated (root : FsPath) (config : Config)
  | logInfo (msg : String)
  | logWarning (msg : String)
  | unlink (path : FsPath)
  | runLinter (root : FsPath) (config : Config) (files : Option (List FsPath)) (profile_checks : Bool)
  | runFormatter (root : FsPath) (config : Config) (files : Option (List FsPath))
  | rmtree (path : FsPath)
  | mkdir (path : FsPath)
  | subprocessCall (cmd : List String)
  | fixCompileCommands (compile_commands : FsPath) (base_dir : FsPath)
deriving DecidableEq, Repr

/-- Exceptions the embedded fragment can raise: the `assert file.is_file()`
failures in `main_lint`/`main_format`/`main_dtgen`, and an exception
propagating out of `run_dtgen`. -/
inductive MainError where
  | assertionError
  | dtgenError
deriving DecidableEq, Repr

/-- The environment: responses of the external collaborators called by
`__main__.py` (configuration loader, filesystem, dtgen core, linter,
formatter, the `CMAKE_FLAGS` environment variable). -/
structure Env where
  getConfigRoot : FsPath → FsPath
  getConfig : FsPath → Config
  isFile : FsPath → Bool
  dtgenRaises : FsPath → Config → Option (List FsPath) → Bool → Bool
  findOutdated : FsPath → Config → List FsPath
  pathExists : FsPath → Bool
  cmakeFlagsEnv : List String

/-- Arguments of `proj dtgen` (`MainDtgenArgs` in `__main__.py`). -/
structure MainDtgenArgs where
  path : FsPath
  files : List FsPath
  delete_outdated : Bool
  force : Bool

/-- Arguments of `proj cmake` (`MainCmakeArgs` in `__main__.py`). -/
structure MainCmakeArgs where
  path : FsPath
  force : Bool
  trace : Bool

/-- Arguments of `proj build` (`MainBuildArgs` in `__main__.py`). -/
structure MainBuildArgs where
  path : FsPath
  verbosity : Nat
  jobs : Nat

/-- Arguments of `proj test` (`MainTestArgs` in `__main__.py`). -/
structure MainTestArgs where
  path : FsPath
  verbosity : Nat
  jobs : Nat

/-- Arguments of `proj lint` (`MainLintArgs` in `__main__.py`). -/
structure MainLintArgs where
  path : FsPath
  files : List FsPath
  profile_checks : Bool

/-- Arguments of `proj format` (`main_format` takes `path` and `files`). -/
structure MainFormatArgs where
  path : FsPath
  files : List FsPath

/-- The shared `files` preprocessing of `main_lint`, `main_format` and
`main_dtgen`: an empty sequence becomes `None` (no restriction); otherwise
each listed path is asserted to be a regular file and the list is passed
through (`files = list(args.files)`). The first path failing `is_file()`
raises `AssertionError`. -/
def resolveFiles (isFile : FsPath → Bool) (files : List FsPath) :
    Except MainError (Option (List FsPath)) :=
  if files.isEmpty then .ok none
  else match files.find? (fun f => !isFile f) with
    | some _ => .error .assertionError
    | none => .ok (some files)

/-- Embedding of `main_dtgen` (`__main__.py` lines 187-208): resolve the
config root and config, preprocess `files`, call `run_dtgen`, then either
delete every outdated path reported by `find_outdated` (logging at info
level) or warn about each (logging at warning level). -/
def main_dtgen (env : Env) (args : MainDtgenArgs) : List Event × Option MainError :=
  let root := env.getConfigRoot args.path
  let config := env.getConfig args.path
  let pre := [Event.getConfigRoot args.path, Event.getConfig args.path]
  match resolveFiles env.isFile args.files with
  | .error e => (pre, some e)
  | .ok files =>
    let pre := pre ++ [Event.runDtgen root config files args.force]
    if env.dtgenRaises root config files args.force then
      (pre, some .dtgenError)
    else
      let outdatedEvents :=
        if args.delete_outdated then
          (env.findOutdated root config).flatMap (fun p =>
            [Event.logInfo ("Removing out-of-date file at " ++ p), Event.unlink p])
        else
          (env.findOutdated root config).map (fun p =>
            Event.logWarning ("Possible out-of-date file at " ++ p))
      (pre ++ [Event.findOutdated root config] ++ outdatedEvents, none)

/-- Embedding of `main_lint` (`__main__.py` lines 158-167). -/
def main_lint (env : Env) (args : MainLintArgs) : List Event × Option MainError :=
  let root := env.getConfigRoot args.path
  let config := env.getConfig args.path
  let pre := [Event.getConfigRoot args.path, Event.getConfig args.path]
  match resolveFiles env.isFile args.files with
  | .error e => (pre, some e)
  | .ok files =>
    (pre ++ [Event.runLinter root config files args.profile_checks], none)

/-- Embedding of `main_format` (`__main__.py` lines 169-178). -/
def main_format (env : Env) (args : MainFormatArgs) : List Event × Option MainError :=
  let root := env.getConfigRoot args.path
  let config := env.getConfig args.path
  let pre := [Event.getConfigRoot args.path, Event.getConfig args.path]
  match resolveFiles env.isFile args.files with
  | .error e => (pre, some e)
  | .ok files =>
    (pre ++ [Event.runFormatter root config files], none)

/-- The `cmake` command line assembled by `main_cmake` (lines 74-82). -/
def cmakeCommand (env : Env) (config : Config) (args : MainCmakeArgs) : List String :=
  let cmake_args :=
    config.cmake_flags.map (fun kv => "-D" ++ kv.1 ++ "=" ++ kv.2)
    ++ env.cmakeFlagsEnv
    ++ (if args.trace then ["--trace", "--trace-expand", "--trace-redirect=trace.log"] else [])
  ["cmake"] ++ cmake_args ++ [".."]

/-- The `make` command line assembled by `main_build`/`main_test`. -/
def makeCommand (jobs : Nat) (targets : List String) : List String :=
  ["make", "-j", toString jobs] ++ targets

/-- The `ctest` command line assembled by `main_test` (lines 143-150). -/
def ctestCommand (test_targets : List String) : List String :=
  ["ctest", "--progress", "--output-on-failure", "-L",
    "^" ++ String.intercalate "|" test_targets ++ "$"]

/-- Embedding of `main_cmake` (`__main__.py` lines 62-96): first a nested
`main_dtgen` with `files=[]`, `delete_outdated=True`, `force=False`; then,
if `args.force` and the build directory exists, remove it; recreate it; run
`cmake`; optionally fix the compile-commands database; run `compdb`. -/
def main_cmake (env : Env) (args : MainCmakeArgs) : List Event × Option MainError :=
  let dt := main_dtgen env
    { path := args.path, files := [], delete_outdated := true, force := false }
  match dt.2 with
  | some e => (dt.1, some e)
  | none =>
    let config := env.getConfig args.path
    let rmEvents :=
      if args.force && env.pathExists config.build_dir then [Event.rmtree config.build_dir]
      else []
    let fixEvents :=
      if config.fix_compile_commands then
        [Event.fixCompileCommands (config.build_dir ++ "/compile_commands.json") config.base]
      else []
    (dt.1 ++ [Event.getConfig args.path] ++ rmEvents
      ++ [Event.mkdir config.build_dir]
      ++ [Event.subprocessCall (cmakeCommand env config args)]
      ++ fixEvents
      ++ [Event.subprocessCall ["compdb", "-p", ".", "list"]], none)

/-- Embedding of `main_build` (`__main__.py` lines 104-119): a nested
`main_dtgen` with `files=[]`, `delete_outdated=True`, `force=False`, then
`make -j <jobs> <build_targets>`. -/
def main_build (env : Env) (args : MainBuildArgs) : List Event × Option MainError :=
  let dt := main_dtgen env
    { path := args.path, files := [], delete_outdated := true, force := false }
  match dt.2 with
  | some e => (dt.1, some e)
  | none =>
    let config := env.getConfig args.path
    (dt.1 ++ [Event.getConfig args.path]
      ++ [Event.subprocessCall (makeCommand args.jobs config.build_targets)], none)

/-- Embedding of `main_test` (`__main__.py` lines 127-150): a nested
`main_dtgen` with `files=[]`, `delete_outdated=True`, `force=False`, then
`make -j <jobs> <test_targets>` and `ctest`. -/
def main_test (env : Env) (args : MainTestArgs) : List Event × Option MainError :=
  let dt := main_dtgen env
    { path := args.path, files := [], delete_outdated := true, force := false }
  match dt.2 with
  | some e => (dt.1, some e)
  | none =>
    let config := env.getConfig args.path
    (dt.1 ++ [Event.getConfig args.path]
      ++ [Event.subprocessCall (makeCommand args.jobs config.test_targets)]
      ++ [Event.subprocessCall (ctestCommand config.test_targets)], none)

/-- Phase number of an event within a `main_dtgen` run: configuration
resolution, then the generation engine, then the outdated-output finder,
then deletion/logging. -/
def dtgenPhase : Event → Nat
  | .getConfigRoot _ => 0
  | .getConfig _ => 0
  | .runDtgen _ _ _ _ => 1
  | .findOutdated _ _ => 2
  | _ => 3

/-- Modelled from the spec: a type-reference of the data model (§3) — the
schema parser and emitter sources are not under `src/`. A reference points
to a primitive, to another TypeSpec by qualified name, or is a parametric
container (sequence-of, optional-of). -/
inductive TypeRef where
  | primitive (name : String)
  | named (qualifiedName : String)
  | seqOf (elem : TypeRef)
  | optionalOf (elem : TypeRef)
deriving DecidableEq, Repr

/-- Modelled from the spec: the parsed model of one declared type (§3) —
struct, tagged variant, or enumeration, with declaration order preserved. -/
inductive TypeSpec where
  | struct (name : String) (fields : List (String × TypeRef))
  | variant (name : String) (alternatives : List (String × TypeRef))
  | enum (name : String) (labels : List String)
deriving DecidableEq, Repr

/-- The declared name of a TypeSpec. -/
def specName : TypeSpec → String
  | .struct n _ => n
  | .variant n _ => n
  | .enum n _ => n

/-- Modelled from the spec: rendering of one type-reference by the Emitter
(§4.2). A named reference is resolved against the supplied resolved-reference
set by qualified name; resolution failures are excluded upstream by the
Generation Engine's name-resolution step, so an unresolved name renders as
itself. -/
def renderRef (refs : List TypeSpec) : TypeRef → String
  | .primitive n => n
  | .named q =>
    match refs.find? (fun ts => specName ts == q) with
    | some ts => specName ts
    | none => q
  | .seqOf t => "std::vector<" ++ renderRef refs t ++ ">"
  | .optionalOf t => "std::optional<" ++ renderRef refs t ++ ">"

/-- Modelled from the spec: the Emitter (§4.2) — deterministically renders a
parsed type-definition model into generated output text, every
field/alternative/label appearing exactly once in declaration order. -/
def emit (spec : TypeSpec) (refs : List TypeSpec) : String :=
  match spec with
  | .struct n fields =>
    "struct " ++ n ++ " \x7b\n"
      ++ String.join (fields.map (fun f =>
          "  " ++ renderRef refs f.2 ++ " " ++ f.1 ++ ";\n"))
      ++ "\x7d;\n"
  | .variant n alts =>
    "using " ++ n ++ " = std::variant<\n"
      ++ String.join (alts.map (fun a =>
          "  /* " ++ a.1 ++ " */ " ++ renderRef refs a.2 ++ ",\n"))
      ++ ">;\n"
  | .enum n labels =>
    "enum class " ++ n ++ " \x7b\n"
      ++ String.join (labels.map (fun l => "  " ++ l ++ ",\n"))
      ++ "\x7d;\n"

/-- Modelled from the spec: the ambient process state the Emitter must be
independent of (§4.2 determinism) — filesystem enumeration order and
environment variables. -/
structure ProcessEnv where
  fsOrder : List FsPath
  envVars : List (String × String)

/-- Modelled from the spec: the Emitter as invoked inside one process run;
the process environment is in scope but the rendering is a pure function of
the TypeSpec and the resolved references only. -/
def emitInEnv (procEnv : ProcessEnv) (spec : TypeSpec) (refs : List TypeSpec) : String :=
  let _ := procEnv.fsOrder
  let _ := procEnv.envVars
  emit spec refs

/-- Modelled from the spec: a content fingerprint (§3) — a fast
non-cryptographic polynomial hash of the file content. -/
def hashStr (s : String) : Nat :=
  s.data.foldl (fun acc c => acc * 131 + c.toNat) 7

/-- Modelled from the spec: the state the Staleness Oracle (§4.3) consults —
per DefinitionFile (identified by `Nat`): the current content fingerprint,
the persisted fingerprint record, whether all its OutputTargets are present
on disk, and the DefinitionFiles it references. -/
structure DtgenState where
  fingerprint : Nat → Nat
  record : Nat → Option Nat
  outputsPresent : Nat → Bool
  refs : Nat → List Nat

/-- Modelled from the spec: the non-propagating part of the staleness
policy (§4.3) — stale when no fingerprint record exists, when the current
fingerprint differs from the recorded one, or when an OutputTarget is
missing from disk. -/
def ownStale (st : DtgenState) (d : Nat) : Bool :=
  match st.record d with
  | none => true
  | some r => r != st.fingerprint d || !st.outputsPresent d

/-- Modelled from the spec: staleness with dependency propagation (§4.3),
evaluated to reference depth `fuel` (the dependency graph is finite and
acyclic per §4.3, so a large enough `fuel` covers every chain). -/
def staleWithin (st : DtgenState) : Nat → Nat → Bool
  | 0, d => ownStale st d
  | n + 1, d => ownStale st d || (st.refs d).any (fun e => staleWithin st n e)

/-- Modelled from the spec: the Staleness Oracle's check (§4.3) —
`true` means `Stale`, `false` means `Fresh`; `force` always yields Stale. -/
def check (st : DtgenState) (force : Bool) (fuel : Nat) (d : Nat) : Bool :=
  force || staleWithin st fuel d

/-- Reflexive-transitive reachability along reference edges, to depth
`fuel`: does `d` transitively reference `e` (or equal it)? -/
def reachesWithin (refs : Nat → List Nat) : Nat → Nat → Nat → Bool
  | 0, d, e => d == e
  | n + 1, d, e => d == e || (refs d).any (fun m => reachesWithin refs n m e)

/-- Modelled from the spec: the outcome per DefinitionFile of one Generation
Engine run (§3): `Skipped(Fresh)`, `Regenerated`, or `Failed`. -/
inductive GenResult where
  | skippedFresh
  | regenerated
  | failed
deriving DecidableEq, Repr

/-- Whether a GenResult is `Failed`. -/
def GenResult.isFailed : GenResult → Bool
  | .failed => true
  | _ => false

/-- Modelled from the spec: the inputs of one Generation Engine run (§4.4) —
the definition store's files (by id), each file's raw content, its parsed
model, the files it references, and whether its parse succeeds. -/
structure Inputs where
  files : List Nat
  content : Nat → String
  spec : Nat → TypeSpec
  refs : Nat → List Nat
  parseOk : Nat → Bool

/-- Modelled from the spec: the persisted state the engine reads and writes
(§3) — per DefinitionFile, the fingerprint record of the last successful
generation and the on-disk generated output (none when absent). -/
structure World where
  record : Nat → Option Nat
  output : Nat → Option String

/-- The current content fingerprint of a DefinitionFile. -/
def fp (inp : Inputs) (d : Nat) : Nat := hashStr (inp.content d)

/-- The DtgenState the Staleness Oracle sees at the start of a run. -/
def stateOf (inp : Inputs) (w : World) : DtgenState :=
  { fingerprint := fun d => fp inp d
    record := w.record
    outputsPresent := fun d => (w.output d).isSome
    refs := inp.refs }

/-- Modelled from the spec: error propagation (§4.4 step 2-3) — a file
fails when its own parse fails or when a file it references (to depth
`fuel`) fails, since a malformed file produces `Failed` for itself and for
anything depending on it. -/
def failedWithin (inp : Inputs) : Nat → Nat → Bool
  | 0, d => !inp.parseOk d
  | n + 1, d => !inp.parseOk d || (inp.refs d).any (fun e => failedWithin inp n e)

/-- The bytes the engine writes for a DefinitionFile: the Emitter applied to
its parsed model and the parsed models of its resolved references. -/
def emitFor (inp : Inputs) (d : Nat) : String :=
  emit (inp.spec d) ((inp.refs d).map inp.spec)

/-- Modelled from the spec: the per-file outcome of a run (§4.4): `Failed`
when the file or a dependency fails to parse, otherwise `Regenerated` when
the Staleness Oracle reports Stale, else `Skipped(Fresh)`. The oracle is
evaluated against the world at the start of the run, so a dependency's
staleness propagates even though it is itself regenerated in the same
run. -/
def resultFor (inp : Inputs) (w : World) (force : Bool) (fuel : Nat) (d : Nat) : GenResult :=
  if failedWithin inp fuel d then .failed
  else if check (stateOf inp w) force fuel d then .regenerated
  else .skippedFresh

/-- Modelled from the spec: regenerating one DefinitionFile (§4.4 step 5) —
write its output and update its fingerprint record, leaving every other
file's state untouched (output paths are disjoint per file, §5). -/
def regen (inp : Inputs) (w : World) (d : Nat) : World :=
  { record := fun e => if e = d then some (fp inp d) else w.record e
    output := fun e => if e = d then some (emitFor inp d) else w.output e }

/-- Modelled from the spec: one Generation Engine run (§4.4) — per-file
results, the final world, and the fail-at-end overall failure flag (§7:
failure exactly when some file failed). -/
def runEngine (inp : Inputs) (force : Bool) (fuel : Nat) (w : World) :
    List (Nat × GenResult) × World × Bool :=
  let results := inp.files.map (fun d => (d, resultFor inp w force fuel d))
  let w2 := inp.files.foldl
    (fun acc d => if resultFor inp w force fuel d = .regenerated then regen inp acc d else acc) w
  (results, w2, results.any (fun pr => pr.2.isFailed))

/-- A concrete environment used by witness instantiations. -/
def envW : Env :=
  { getConfigRoot := fun p => p
    getConfig := fun _ =>
      { build_dir := "build", base := ".", cmake_flags := [("A", "1")],
        cmake_require_shell := false, fix_compile_commands := false,
        build_targets := ["lib"], test_targets := ["tests"] }
    isFile := fun f => f != "missing.toml"
    dtgenRaises := fun _ _ _ _ => false
    findOutdated := fun _ _ => ["build/stale.hh"]
    pathExists := fun _ => true
    cmakeFlagsEnv := [] }


/-- Shape of `main_dtgen` when one of the `assert file.is_file()` checks
fails: only configuration resolution happened, and `AssertionError`
propagates. -/
theorem main_dtgen_assertion_eq (env : Env) (args : MainDtgenArgs) (e : MainError)
    (hres : resolveFiles env.isFile args.files = .error e) :
    main_dtgen env args =
      ([Event.getConfigRoot args.path, Event.getConfig args.path], some e) := by
  simp [main_dtgen, hres]

/-- Shape of `main_dtgen` when `run_dtgen` raises: configuration resolution
and the `run_dtgen` call happened, nothing else. -/
theorem main_dtgen_raise_eq (env : Env) (args : MainDtgenArgs) (files : Option (List FsPath))
    (hres : resolveFiles env.isFile args.files = .ok files)
    (hraise : env.dtgenRaises (env.getConfigRoot args.path) (env.getConfig args.path)
      files args.force = true) :
    main_dtgen env args =
      ([Event.getConfigRoot args.path, Event.getConfig args.path,
        Event.runDtgen (env.getConfigRoot args.path) (env.getConfig args.path)
          files args.force],
       some .dtgenError) := by
  simp [main_dtgen, hres, hraise]

/-- Shape of `main_dtgen` on a fully successful run. -/
theorem main_dtgen_success_eq (env : Env) (args : MainDtgenArgs) (files : Option (List FsPath))
    (hres : resolveFiles env.isFile args.files = .ok files)
    (hraise : env.dtgenRaises (env.getConfigRoot args.path) (env.getConfig args.path)
      files args.force = false) :
    main_dtgen env args =
      ([Event.getConfigRoot args.path, Event.getConfig args.path,
        Event.runDtgen (env.getConfigRoot args.path) (env.getConfig args.path)
          files args.force,
        Event.findOutdated (env.getConfigRoot args.path) (env.getConfig args.path)]
        ++ (if args.delete_outdated then
              (env.findOutdated (env.getConfigRoot args.path)
                (env.getConfig args.path)).flatMap (fun p =>
                  [Event.logInfo ("Removing out-of-date file at " ++ p), Event.unlink p])
            else
              (env.findOutdated (env.getConfigRoot args.path)
                (env.getConfig args.path)).map (fun p =>
                  Event.logWarning ("Possible out-of-date file at " ++ p))),
       none) := by
  simp [main_dtgen, hres, hraise]

/-- A successful `main_dtgen` run passed the file assertions and
`run_dtgen` did not raise. -/
theorem main_dtgen_success_inv (env : Env) (args : MainDtgenArgs)
    (h : (main_dtgen env args).2 = none) :
    ∃ files, resolveFiles env.isFile args.files = .ok files ∧
      env.dtgenRaises (env.getConfigRoot args.path) (env.getConfig args.path)
        files args.force = false := by
  rcases hres : resolveFiles env.isFile args.files with e | files
  · rw [main_dtgen_assertion_eq env args e hres] at h
    simp at h
  · rcases hraise : env.dtgenRaises (env.getConfigRoot args.path) (env.getConfig args.path)
        files args.force
    · exact ⟨files, rfl, hraise⟩
    · rw [main_dtgen_raise_eq env args files hres hraise] at h
      simp at h

/-- C1: after a successful `run_dtgen`, `main_dtgen` with
`delete_outdated = true` unlinks every path reported by `find_outdated` and
logs an info message naming it; with `delete_outdated = false` it logs a
warning naming every reported path and deletes none of them. -/
theorem main_dtgen_outdated_handling (env : Env) (args : MainDtgenArgs)
    (hsucc : (main_dtgen env args).2 = none) :
    ∀ p ∈ env.findOutdated (env.getConfigRoot args.path) (env.getConfig args.path),
      (args.delete_outdated = true →
        Event.unlink p ∈ (main_dtgen env args).1 ∧
        Event.logInfo ("Removing out-of-date file at " ++ p) ∈ (main_dtgen env args).1) ∧
      (args.delete_outdated = false →
        Event.logWarning ("Possible out-of-date file at " ++ p) ∈ (main_dtgen env args).1 ∧
        Event.unlink p ∉ (main_dtgen env args).1) := by
  intro p hp
  obtain ⟨files, hres, hraise⟩ := main_dtgen_success_inv env args hsucc
  rw [main_dtgen_success_eq env args files hres hraise]
  dsimp only
  constructor
  · intro hdel
    rw [hdel, if_pos rfl]
    constructor
    · exact List.mem_append_right _ (List.mem_flatMap.mpr ⟨p, hp, by simp⟩)
    · exact List.mem_append_right _ (List.mem_flatMap.mpr ⟨p, hp, by simp⟩)
  · intro hdel
    rw [hdel, if_neg (by simp)]
    constructor
    · exact List.mem_append_right _ (List.mem_map.mpr ⟨p, hp, rfl⟩)
    · intro hmem
      rcases List.mem_append.mp hmem with h | h
      · simp at h
      · obtain ⟨q, _, heq⟩ := List.mem_map.mp h
        exact Event.noConfusion heq

/-- Witness for C1: a concrete successful run with `delete_outdated = true`
unlinks the reported outdated path. -/
theorem main_dtgen_outdated_handling_witness :
    (main_dtgen envW ⟨"proj", [], true, false⟩).2 = none ∧
    "build/stale.hh" ∈ envW.findOutdated (envW.getConfigRoot "proj") (envW.getConfig "proj") ∧
    Event.unlink "build/stale.hh" ∈ (main_dtgen envW ⟨"proj", [], true, false⟩).1 :=
  ⟨by decide, by decide,
    ((main_dtgen_outdated_handling envW ⟨"proj", [], true, false⟩ (by decide)
      "build/stale.hh" (by decide)).1 rfl).1⟩

/-- An empty explicit file list resolves to `None`: no subset restriction. -/
theorem resolveFiles_nil (isFile : FsPath → Bool) :
    resolveFiles isFile [] = .ok none := rfl

/-- A non-empty list whose members all pass `is_file()` resolves to itself. -/
theorem resolveFiles_ok_of_all (isFile : FsPath → Bool) (l : List FsPath)
    (hne : l ≠ []) (hall : ∀ f ∈ l, isFile f = true) :
    resolveFiles isFile l = .ok (some l) := by
  unfold resolveFiles
  rw [if_neg (by simpa using hne)]
  rw [List.find?_eq_none.mpr (by intro x hx; simp [hall x hx])]

/-- A list containing a path that fails `is_file()` raises `AssertionError`. -/
theorem resolveFiles_error_of_exists (isFile : FsPath → Bool) (l : List FsPath)
    (hex : ∃ f ∈ l, isFile f = false) :
    resolveFiles isFile l = .error .assertionError := by
  obtain ⟨f, hf, hnot⟩ := hex
  unfold resolveFiles
  rw [if_neg (by simp; exact List.ne_nil_of_mem hf)]
  rcases hfind : l.find? (fun f => !isFile f) with _ | x
  · exact absurd (List.find?_eq_none.mp hfind f hf) (by simp [hnot])
  · rfl

/-- Shape of `main_lint` when an `assert file.is_file()` check fails. -/
theorem main_lint_assertion_eq (env : Env) (args : MainLintArgs) (e : MainError)
    (hres : resolveFiles env.isFile args.files = .error e) :
    main_lint env args =
      ([Event.getConfigRoot args.path, Event.getConfig args.path], some e) := by
  simp [main_lint, hres]

/-- Shape of `main_lint` when the file assertions pass. -/
theorem main_lint_ok_eq (env : Env) (args : MainLintArgs) (files : Option (List FsPath))
    (hres : resolveFiles env.isFile args.files = .ok files) :
    main_lint env args =
      ([Event.getConfigRoot args.path, Event.getConfig args.path,
        Event.runLinter (env.getConfigRoot args.path) (env.getConfig args.path)
          files args.profile_checks], none) := by
  simp [main_lint, hres]

/-- Shape of `main_format` when an `assert file.is_file()` check fails. -/
theorem main_format_assertion_eq (env : Env) (args : MainFormatArgs) (e : MainError)
    (hres : resolveFiles env.isFile args.files = .error e) :
    main_format env args =
      ([Event.getConfigRoot args.path, Event.getConfig args.path], some e) := by
  simp [main_format, hres]

/-- Shape of `main_format` when the file assertions pass. -/
theorem main_format_ok_eq (env : Env) (args : MainFormatArgs) (files : Option (List FsPath))
    (hres : resolveFiles env.isFile args.files = .ok files) :
    main_format env args =
      ([Event.getConfigRoot args.path, Event.getConfig args.path,
        Event.runFormatter (env.getConfigRoot args.path) (env.getConfig args.path)
          files], none) := by
  simp [main_format, hres]

/-- Whenever the file assertions pass, the `run_dtgen` call event is in the
trace (whether or not `run_dtgen` then raises). -/
theorem runDtgen_mem_of_ok (env : Env) (args : MainDtgenArgs) (files : Option (List FsPath))
    (hres : resolveFiles env.isFile args.files = .ok files) :
    Event.runDtgen (env.getConfigRoot args.path) (env.getConfig args.path)
      files args.force ∈ (main_dtgen env args).1 := by
  rcases hraise : env.dtgenRaises (env.getConfigRoot args.path) (env.getConfig args.path)
      files args.force
  · rw [main_dtgen_success_eq env args files hres hraise]
    simp
  · rw [main_dtgen_raise_eq env args files hres hraise]
    simp

/-- C2: in `main_dtgen`, `main_lint` and `main_format`, an empty explicit
files sequence makes the underlying run function receive `None` (no subset
restriction), and a non-empty sequence (whose members pass the `is_file`
assertions) makes it receive exactly that list of paths. -/
theorem run_functions_receive_subset (env : Env) (dargs : MainDtgenArgs)
    (largs : MainLintArgs) (fargs : MainFormatArgs) :
    (dargs.files = [] →
      Event.runDtgen (env.getConfigRoot dargs.path) (env.getConfig dargs.path)
        none dargs.force ∈ (main_dtgen env dargs).1) ∧
    (dargs.files ≠ [] → (∀ f ∈ dargs.files, env.isFile f = true) →
      Event.runDtgen (env.getConfigRoot dargs.path) (env.getConfig dargs.path)
        (some dargs.files) dargs.force ∈ (main_dtgen env dargs).1) ∧
    (largs.files = [] →
      Event.runLinter (env.getConfigRoot largs.path) (env.getConfig largs.path)
        none largs.profile_checks ∈ (main_lint env largs).1) ∧
    (largs.files ≠ [] → (∀ f ∈ largs.files, env.isFile f = true) →
      Event.runLinter (env.getConfigRoot largs.path) (env.getConfig largs.path)
        (some largs.files) largs.profile_checks ∈ (main_lint env largs).1) ∧
    (fargs.files = [] →
      Event.runFormatter (env.getConfigRoot fargs.path) (env.getConfig fargs.path)
        none ∈ (main_format env fargs).1) ∧
    (fargs.files ≠ [] → (∀ f ∈ fargs.files, env.isFile f = true) →
      Event.runFormatter (env.getConfigRoot fargs.path) (env.getConfig fargs.path)
        (some fargs.files) ∈ (main_format env fargs).1) := by
  refine ⟨?_, ?_, ?_, ?_, ?_, ?_⟩
  · intro hnil
    exact runDtgen_mem_of_ok env dargs none (by rw [hnil]; exact resolveFiles_nil _)
  · intro hne hall
    exact runDtgen_mem_of_ok env dargs (some dargs.files)
      (resolveFiles_ok_of_all _ _ hne hall)
  · intro hnil
    rw [main_lint_ok_eq env largs none (by rw [hnil]; exact resolveFiles_nil _)]
    simp
  · intro hne hall
    rw [main_lint_ok_eq env largs (some largs.files)
      (resolveFiles_ok_of_all _ _ hne hall)]
    simp
  · intro hnil
    rw [main_format_ok_eq env fargs none (by rw [hnil]; exact resolveFiles_nil _)]
    simp
  · intro hne hall
    rw [main_format_ok_eq env fargs (some fargs.files)
      (resolveFiles_ok_of_all _ _ hne hall)]
    simp

/-- Witness for C2: concrete empty and non-empty invocations. -/
theorem run_functions_receive_subset_witness :
    Event.runDtgen (envW.getConfigRoot "proj") (envW.getConfig "proj") none false
      ∈ (main_dtgen envW ⟨"proj", [], false, false⟩).1 ∧
    Event.runLinter (envW.getConfigRoot "proj") (envW.getConfig "proj")
      (some ["a.cc"]) false ∈ (main_lint envW ⟨"proj", ["a.cc"], false⟩).1 ∧
    Event.runFormatter (envW.getConfigRoot "proj") (envW.getConfig "proj")
      (some ["a.cc", "b.cc"]) ∈ (main_format envW ⟨"proj", ["a.cc", "b.cc"]⟩).1 :=
  ⟨(run_functions_receive_subset envW ⟨"proj", [], false, false⟩
      ⟨"proj", [], false⟩ ⟨"proj", []⟩).1 rfl,
   ((run_functions_receive_subset envW ⟨"proj", [], false, false⟩
      ⟨"proj", ["a.cc"], false⟩ ⟨"proj", []⟩).2.2.2.1 (by decide) (by decide)),
   ((run_functions_receive_subset envW ⟨"proj", [], false, false⟩
      ⟨"proj", [], false⟩ ⟨"proj", ["a.cc", "b.cc"]⟩).2.2.2.2.2 (by decide) (by decide))⟩

/-- Every event's `main_dtgen` phase is at most 3. -/
theorem dtgenPhase_le_three (e : Event) : dtgenPhase e ≤ 3 := by
  cases e <;> simp [dtgenPhase]

/-- A list of phase-3 events is ordered by phase. -/
theorem pairwise_phase_of_eq_three (l : List Event) (h : ∀ e ∈ l, dtgenPhase e = 3) :
    List.Pairwise (fun a b => dtgenPhase a ≤ dtgenPhase b) l := by
  induction l with
  | nil => exact List.Pairwise.nil
  | cons x xs ih =>
    refine List.Pairwise.cons ?_ (ih ?_)
    · intro b hb
      rw [h x (by simp), h b (by simp [hb])]
    · intro e he
      exact h e (by simp [he])

/-- Every event of the deletion/warning suffix of a successful `main_dtgen`
run has phase 3. -/
theorem outdated_events_phase (outdated : List FsPath) (delete_outdated : Bool)
    (e : Event)
    (he : e ∈ (if delete_outdated then
        outdated.flatMap (fun p =>
          [Event.logInfo ("Removing out-of-date file at " ++ p), Event.unlink p])
      else
        outdated.map (fun p =>
          Event.logWarning ("Possible out-of-date file at " ++ p)))) :
    dtgenPhase e = 3 := by
  rcases delete_outdated
  · rw [if_neg (by simp)] at he
    obtain ⟨p, _, heq⟩ := List.mem_map.mp he
    rw [← heq]
    rfl
  · rw [if_pos rfl] at he
    obtain ⟨p, _, hmem⟩ := List.mem_flatMap.mp he
    simp only [List.mem_cons, List.mem_singleton, List.not_mem_nil, or_false] at hmem
    rcases hmem with h | h <;> rw [h] <;> rfl

/-- C3: `main_dtgen` resolves configuration first, then calls `run_dtgen`,
and calls `find_outdated` only after `run_dtgen` returns without raising:
the trace starts with the two configuration events, event phases are
monotone along the trace, a raise from `run_dtgen` leaves no
`find_outdated`/unlink/log event in the trace, and a successful run
contains both the `run_dtgen` and the `find_outdated` call. -/
theorem main_dtgen_phase_order (env : Env) (args : MainDtgenArgs) :
    (∃ rest, (main_dtgen env args).1 =
      Event.getConfigRoot args.path :: Event.getConfig args.path :: rest) ∧
    List.Pairwise (fun a b => dtgenPhase a ≤ dtgenPhase b) (main_dtgen env args).1 ∧
    ((main_dtgen env args).2 = some .dtgenError →
      (∀ ro co, Event.findOutdated ro co ∉ (main_dtgen env args).1) ∧
      (∀ p, Event.unlink p ∉ (main_dtgen env args).1) ∧
      (∀ m, Event.logInfo m ∉ (main_dtgen env args).1) ∧
      (∀ m, Event.logWarning m ∉ (main_dtgen env args).1)) ∧
    ((main_dtgen env args).2 = none →
      ∃ files,
        Event.runDtgen (env.getConfigRoot args.path) (env.getConfig args.path)
          files args.force ∈ (main_dtgen env args).1 ∧
        Event.findOutdated (env.getConfigRoot args.path) (env.getConfig args.path)
          ∈ (main_dtgen env args).1) := by
  rcases hres : resolveFiles env.isFile args.files with e | files
  · rw [main_dtgen_assertion_eq env args e hres]
    refine ⟨⟨[], rfl⟩, by simp [dtgenPhase], ?_, ?_⟩
    · intro _
      exact ⟨fun ro co => by simp, fun p => by simp, fun m => by simp, fun m => by simp⟩
    · intro h
      simp at h
  · rcases hraise : env.dtgenRaises (env.getConfigRoot args.path) (env.getConfig args.path)
        files args.force
    · rw [main_dtgen_success_eq env args files hres hraise]
      refine ⟨⟨_, rfl⟩, ?_, ?_, ?_⟩
      · rw [List.pairwise_append]
        refine ⟨by simp [dtgenPhase], pairwise_phase_of_eq_three _
          (fun e he => outdated_events_phase _ _ e he), ?_⟩
        intro a ha b hb
        rw [outdated_events_phase _ _ b hb]
        exact dtgenPhase_le_three a
      · intro h
        simp at h
      · intro _
        exact ⟨files, by simp, by simp⟩
    · rw [main_dtgen_raise_eq env args files hres hraise]
      refine ⟨⟨_, rfl⟩, by simp [dtgenPhase], ?_, ?_⟩
      · intro _
        exact ⟨fun ro co => by simp, fun p => by simp, fun m => by simp, fun m => by simp⟩
      · intro h
        simp at h

/-- Witness for C3: the success-case conjunct at a concrete invocation. -/
theorem main_dtgen_phase_order_witness :
    ∃ files,
      Event.runDtgen (envW.getConfigRoot "proj") (envW.getConfig "proj") files false
        ∈ (main_dtgen envW ⟨"proj", [], true, false⟩).1 ∧
      Event.findOutdated (envW.getConfigRoot "proj") (envW.getConfig "proj")
        ∈ (main_dtgen envW ⟨"proj", [], true, false⟩).1 :=
  (main_dtgen_phase_order envW ⟨"proj", [], true, false⟩).2.2.2 (by decide)

/-- If the file assertions pass, `main_dtgen` never raises `AssertionError`. -/
theorem main_dtgen_no_assert (env : Env) (args : MainDtgenArgs) (files : Option (List FsPath))
    (hres : resolveFiles env.isFile args.files = .ok files) :
    (main_dtgen env args).2 ≠ some .assertionError := by
  rcases hraise : env.dtgenRaises (env.getConfigRoot args.path) (env.getConfig args.path)
      files args.force
  · rw [main_dtgen_success_eq env args files hres hraise]
    simp
  · rw [main_dtgen_raise_eq env args files hres hraise]
    simp

/-- C8: for `main_dtgen`, `main_lint` and `main_format` with a non-empty
files argument, every listed path being a regular file is exactly the
condition under which the assertion branch is unreachable; a path that is
not a regular file raises `AssertionError` before the run function is
called and before any outdated output is deleted or warned about. -/
theorem is_file_assertion_precondition (env : Env) (dargs : MainDtgenArgs)
    (largs : MainLintArgs) (fargs : MainFormatArgs) :
    ((∀ f ∈ dargs.files, env.isFile f = true) →
      (main_dtgen env dargs).2 ≠ some .assertionError) ∧
    ((∃ f ∈ dargs.files, env.isFile f = false) →
      (main_dtgen env dargs).2 = some .assertionError ∧
      (∀ ro co fs fo, Event.runDtgen ro co fs fo ∉ (main_dtgen env dargs).1) ∧
      (∀ p, Event.unlink p ∉ (main_dtgen env dargs).1) ∧
      (∀ m, Event.logWarning m ∉ (main_dtgen env dargs).1)) ∧
    ((∀ f ∈ largs.files, env.isFile f = true) →
      (main_lint env largs).2 ≠ some .assertionError) ∧
    ((∃ f ∈ largs.files, env.isFile f = false) →
      (main_lint env largs).2 = some .assertionError ∧
      (∀ ro co fs pc, Event.runLinter ro co fs pc ∉ (main_lint env largs).1)) ∧
    ((∀ f ∈ fargs.files, env.isFile f = true) →
      (main_format env fargs).2 ≠ some .assertionError) ∧
    ((∃ f ∈ fargs.files, env.isFile f = false) →
      (main_format env fargs).2 = some .assertionError ∧
      (∀ ro co fs, Event.runFormatter ro co fs ∉ (main_format env fargs).1)) := by
  refine ⟨?_, ?_, ?_, ?_, ?_, ?_⟩
  · intro hall
    by_cases hnil : dargs.files = []
    · exact main_dtgen_no_assert env dargs none (by rw [hnil]; rfl)
    · exact main_dtgen_no_assert env dargs _ (resolveFiles_ok_of_all _ _ hnil hall)
  · intro hex
    rw [main_dtgen_assertion_eq env dargs _ (resolveFiles_error_of_exists _ _ hex)]
    exact ⟨rfl, fun ro co fs fo => by simp, fun p => by simp, fun m => by simp⟩
  · intro hall
    by_cases hnil : largs.files = []
    · rw [main_lint_ok_eq env largs none (by rw [hnil]; rfl)]
      simp
    · rw [main_lint_ok_eq env largs _ (resolveFiles_ok_of_all _ _ hnil hall)]
      simp
  · intro hex
    rw [main_lint_assertion_eq env largs _ (resolveFiles_error_of_exists _ _ hex)]
    exact ⟨rfl, fun ro co fs pc => by simp⟩
  · intro hall
    by_cases hnil : fargs.files = []
    · rw [main_format_ok_eq env fargs none (by rw [hnil]; rfl)]
      simp
    · rw [main_format_ok_eq env fargs _ (resolveFiles_ok_of_all _ _ hnil hall)]
      simp
  · intro hex
    rw [main_format_assertion_eq env fargs _ (resolveFiles_error_of_exists _ _ hex)]
    exact ⟨rfl, fun ro co fs => by simp⟩

/-- Witness for C8: a path that is not a regular file raises
`AssertionError` in `main_dtgen`; paths that are regular files do not. -/
theorem is_file_assertion_precondition_witness :
    (main_dtgen envW ⟨"proj", ["missing.toml"], false, false⟩).2 = some .assertionError ∧
    (main_lint envW ⟨"proj", ["a.cc"], false⟩).2 ≠ some .assertionError :=
  ⟨((is_file_assertion_precondition envW ⟨"proj", ["missing.toml"], false, false⟩
      ⟨"proj", ["a.cc"], false⟩ ⟨"proj", []⟩).2.1 (by decide)).1,
   (is_file_assertion_precondition envW ⟨"proj", ["missing.toml"], false, false⟩
      ⟨"proj", ["a.cc"], false⟩ ⟨"proj", []⟩).2.2.1 (by decide)⟩

/-- Membership in the deletion suffix of a `delete_outdated` run. -/
theorem mem_delete_events_iff (outdated : List FsPath) (e : Event) :
    (e ∈ outdated.flatMap (fun p =>
        [Event.logInfo ("Removing out-of-date file at " ++ p), Event.unlink p])) ↔
    ∃ p ∈ outdated,
      e = Event.logInfo ("Removing out-of-date file at " ++ p) ∨ e = Event.unlink p := by
  rw [List.mem_flatMap]
  constructor
  · rintro ⟨p, hp, hmem⟩
    simp only [List.mem_cons, List.mem_singleton, List.not_mem_nil, or_false] at hmem
    exact ⟨p, hp, by tauto⟩
  · rintro ⟨p, hp, h | h⟩ <;> exact ⟨p, hp, by simp [h]⟩

/-- Shape of `main_cmake` when the nested `main_dtgen` raises. -/
theorem main_cmake_error_eq (env : Env) (args : MainCmakeArgs) (e : MainError)
    (h : (main_dtgen env
      { path := args.path, files := [], delete_outdated := true, force := false }).2 = some e) :
    main_cmake env args =
      ((main_dtgen env
        { path := args.path, files := [], delete_outdated := true, force := false }).1,
       some e) := by
  simp only [main_cmake]
  rw [h]

/-- Shape of `main_cmake` when the nested `main_dtgen` succeeds: the dtgen
trace is followed by configuration lookup, the conditional build-directory
removal, directory creation, the `cmake` call, the optional
compile-commands fix, and the `compdb` call. -/
theorem main_cmake_success_eq (env : Env) (args : MainCmakeArgs)
    (h : (main_dtgen env
      { path := args.path, files := [], delete_outdated := true, force := false }).2 = none) :
    main_cmake env args =
      ((main_dtgen env
        { path := args.path, files := [], delete_outdated := true, force := false }).1
        ++ ([Event.getConfig args.path]
          ++ (if args.force && env.pathExists (env.getConfig args.path).build_dir then
                [Event.rmtree (env.getConfig args.path).build_dir]
              else [])
          ++ [Event.mkdir (env.getConfig args.path).build_dir]
          ++ [Event.subprocessCall (cmakeCommand env (env.getConfig args.path) args)]
          ++ (if (env.getConfig args.path).fix_compile_commands then
                [Event.fixCompileCommands
                  ((env.getConfig args.path).build_dir ++ "/compile_commands.json")
                  (env.getConfig args.path).base]
              else [])
          ++ [Event.subprocessCall ["compdb", "-p", ".", "list"]]),
       none) := by
  simp only [main_cmake]
  rw [h]
  simp [List.append_assoc]

/-- Shape of `main_build` when the nested `main_dtgen` succeeds. -/
theorem main_build_success_eq (env : Env) (args : MainBuildArgs)
    (h : (main_dtgen env
      { path := args.path, files := [], delete_outdated := true, force := false }).2 = none) :
    main_build env args =
      ((main_dtgen env
        { path := args.path, files := [], delete_outdated := true, force := false }).1
        ++ ([Event.getConfig args.path]
          ++ [Event.subprocessCall
                (makeCommand args.jobs (env.getConfig args.path).build_targets)]),
       none) := by
  simp only [main_build]
  rw [h]
  simp [List.append_assoc]

/-- Shape of `main_test` when the nested `main_dtgen` succeeds. -/
theorem main_test_success_eq (env : Env) (args : MainTestArgs)
    (h : (main_dtgen env
      { path := args.path, files := [], delete_outdated := true, force := false }).2 = none) :
    main_test env args =
      ((main_dtgen env
        { path := args.path, files := [], delete_outdated := true, force := false }).1
        ++ ([Event.getConfig args.path]
          ++ [Event.subprocessCall
                (makeCommand args.jobs (env.getConfig args.path).test_targets)]
          ++ [Event.subprocessCall (ctestCommand (env.getConfig args.path).test_targets)]),
       none) := by
  simp only [main_test]
  rw [h]
  simp [List.append_assoc]

/-- The trace of the nested `main_dtgen` call made by `main_cmake`,
`main_build` and `main_test` when it succeeds. -/
theorem nested_dtgen_trace (env : Env) (path : FsPath)
    (h : (main_dtgen env
      { path := path, files := [], delete_outdated := true, force := false }).2 = none) :
    (main_dtgen env
      { path := path, files := [], delete_outdated := true, force := false }).1 =
      [Event.getConfigRoot path, Event.getConfig path,
       Event.runDtgen (env.getConfigRoot path) (env.getConfig path) none false,
       Event.findOutdated (env.getConfigRoot path) (env.getConfig path)]
      ++ (env.findOutdated (env.getConfigRoot path) (env.getConfig path)).flatMap (fun p =>
          [Event.logInfo ("Removing out-of-date file at " ++ p), Event.unlink p]) := by
  obtain ⟨files, hres, hraise⟩ := main_dtgen_success_inv env _ h
  have hfiles : files = none := by
    have hok : (Except.ok none : Except MainError (Option (List FsPath))) =
        .ok files := by rw [← hres]; rfl
    exact (Except.ok.inj hok).symm
  subst hfiles
  rw [main_dtgen_success_eq env _ none hres hraise]
  simp

/-- Properties of the nested dtgen run shared by `cmake`, `build`, `test`:
it passes `files = None` and `force = False` to `run_dtgen`, unlinks every
outdated path, and never merely warns. -/
theorem nested_dtgen_props (env : Env) (path : FsPath)
    (h : (main_dtgen env
      { path := path, files := [], delete_outdated := true, force := false }).2 = none) :
    Event.runDtgen (env.getConfigRoot path) (env.getConfig path) none false
      ∈ (main_dtgen env
        { path := path, files := [], delete_outdated := true, force := false }).1 ∧
    (∀ p ∈ env.findOutdated (env.getConfigRoot path) (env.getConfig path),
      Event.unlink p ∈ (main_dtgen env
        { path := path, files := [], delete_outdated := true, force := false }).1) ∧
    (∀ m, Event.logWarning m ∉ (main_dtgen env
      { path := path, files := [], delete_outdated := true, force := false }).1) := by
  rw [nested_dtgen_trace env path h]
  refine ⟨by simp, ?_, ?_⟩
  · intro p hp
    exact List.mem_append_right _ ((mem_delete_events_iff _ _).mpr ⟨p, hp, Or.inr rfl⟩)
  · intro m hm
    rcases List.mem_append.mp hm with h' | h'
    · simp at h'
    · obtain ⟨p, _, h2 | h2⟩ := (mem_delete_events_iff _ _).mp h' <;>
        exact Event.noConfusion h2

/-- The part of a command's trace that follows its nested dtgen phase. -/
def restAfterDtgen (env : Env) (path : FsPath) (trace : List Event) : List Event :=
  trace.drop (main_dtgen env
    { path := path, files := [], delete_outdated := true, force := false }).1.length

/-- C9: `main_cmake`, `main_build` and `main_test` each first run
`main_dtgen` with `files = []` (hence no subset restriction),
`force = False` and `delete_outdated = True`: the command's trace starts
with the dtgen trace, in which `run_dtgen` receives `None`/`False` and
every outdated output is unlinked; no warning is ever logged; and the
`cmake`/`make`/`ctest` invocation together with everything else comes
after, with no deletion after the dtgen phase. -/
theorem build_commands_dtgen_first (env : Env) (cargs : MainCmakeArgs)
    (bargs : MainBuildArgs) (targs : MainTestArgs)
    (hc : (main_dtgen env
      { path := cargs.path, files := [], delete_outdated := true, force := false }).2 = none)
    (hb : (main_dtgen env
      { path := bargs.path, files := [], delete_outdated := true, force := false }).2 = none)
    (ht : (main_dtgen env
      { path := targs.path, files := [], delete_outdated := true, force := false }).2 = none) :
    ((main_cmake env cargs).1 =
      (main_dtgen env
        { path := cargs.path, files := [], delete_outdated := true, force := false }).1
      ++ restAfterDtgen env cargs.path (main_cmake env cargs).1 ∧
     Event.runDtgen (env.getConfigRoot cargs.path) (env.getConfig cargs.path) none false
      ∈ (main_dtgen env
        { path := cargs.path, files := [], delete_outdated := true, force := false }).1 ∧
     (∀ p ∈ env.findOutdated (env.getConfigRoot cargs.path) (env.getConfig cargs.path),
      Event.unlink p ∈ (main_dtgen env
        { path := cargs.path, files := [], delete_outdated := true, force := false }).1) ∧
     (∀ m, Event.logWarning m ∉ (main_cmake env cargs).1) ∧
     Event.subprocessCall (cmakeCommand env (env.getConfig cargs.path) cargs)
      ∈ restAfterDtgen env cargs.path (main_cmake env cargs).1 ∧
     (∀ p, Event.unlink p ∉ restAfterDtgen env cargs.path (main_cmake env cargs).1)) ∧
    ((main_build env bargs).1 =
      (main_dtgen env
        { path := bargs.path, files := [], delete_outdated := true, force := false }).1
      ++ restAfterDtgen env bargs.path (main_build env bargs).1 ∧
     Event.runDtgen (env.getConfigRoot bargs.path) (env.getConfig bargs.path) none false
      ∈ (main_dtgen env
        { path := bargs.path, files := [], delete_outdated := true, force := false }).1 ∧
     (∀ p ∈ env.findOutdated (env.getConfigRoot bargs.path) (env.getConfig bargs.path),
      Event.unlink p ∈ (main_dtgen env
        { path := bargs.path, files := [], delete_outdated := true, force := false }).1) ∧
     (∀ m, Event.logWarning m ∉ (main_build env bargs).1) ∧
     Event.subprocessCall (makeCommand bargs.jobs (env.getConfig bargs.path).build_targets)
      ∈ restAfterDtgen env bargs.path (main_build env bargs).1 ∧
     (∀ p, Event.unlink p ∉ restAfterDtgen env bargs.path (main_build env bargs).1)) ∧
    ((main_test env targs).1 =
      (main_dtgen env
        { path := targs.path, files := [], delete_outdated := true, force := false }).1
      ++ restAfterDtgen env targs.path (main_test env targs).1 ∧
     Event.runDtgen (env.getConfigRoot targs.path) (env.getConfig targs.path) none false
      ∈ (main_dtgen env
        { path := targs.path, files := [], delete_outdated := true, force := false }).1 ∧
     (∀ p ∈ env.findOutdated (env.getConfigRoot targs.path) (env.getConfig targs.path),
      Event.unlink p ∈ (main_dtgen env
        { path := targs.path, files := [], delete_outdated := true, force := false }).1) ∧
     (∀ m, Event.logWarning m ∉ (main_test env targs).1) ∧
     Event.subprocessCall (makeCommand targs.jobs (env.getConfig targs.path).test_targets)
      ∈ restAfterDtgen env targs.path (main_test env targs).1 ∧
     Event.subprocessCall (ctestCommand (env.getConfig targs.path).test_targets)
      ∈ restAfterDtgen env targs.path (main_test env targs).1 ∧
     (∀ p, Event.unlink p ∉ restAfterDtgen env targs.path (main_test env targs).1)) := by
  obtain ⟨hrunC, hunlC, hwarnC⟩ := nested_dtgen_props env cargs.path hc
  obtain ⟨hrunB, hunlB, hwarnB⟩ := nested_dtgen_props env bargs.path hb
  obtain ⟨hrunT, hunlT, hwarnT⟩ := nested_dtgen_props env targs.path ht
  have hshapeC := congrArg Prod.fst (main_cmake_success_eq env cargs hc)
  have hshapeB := congrArg Prod.fst (main_build_success_eq env bargs hb)
  have hshapeT := congrArg Prod.fst (main_test_success_eq env targs ht)
  simp only at hshapeC hshapeB hshapeT
  have hrestC : restAfterDtgen env cargs.path (main_cmake env cargs).1 =
      [Event.getConfig cargs.path]
      ++ (if cargs.force && env.pathExists (env.getConfig cargs.path).build_dir then
            [Event.rmtree (env.getConfig cargs.path).build_dir] else [])
      ++ [Event.mkdir (env.getConfig cargs.path).build_dir]
      ++ [Event.subprocessCall (cmakeCommand env (env.getConfig cargs.path) cargs)]
      ++ (if (env.getConfig cargs.path).fix_compile_commands then
            [Event.fixCompileCommands
              ((env.getConfig cargs.path).build_dir ++ "/compile_commands.json")
              (env.getConfig cargs.path).base] else [])
      ++ [Event.subprocessCall ["compdb", "-p", ".", "list"]] := by
    rw [restAfterDtgen, hshapeC, List.drop_left]
  have hrestB : restAfterDtgen env bargs.path (main_build env bargs).1 =
      [Event.getConfig bargs.path]
      ++ [Event.subprocessCall (makeCommand bargs.jobs (env.getConfig bargs.path).build_targets)] := by
    rw [restAfterDtgen, hshapeB, List.drop_left]
  have hrestT : restAfterDtgen env targs.path (main_test env targs).1 =
      [Event.getConfig targs.path]
      ++ [Event.subprocessCall (makeCommand targs.jobs (env.getConfig targs.path).test_targets)]
      ++ [Event.subprocessCall (ctestCommand (env.getConfig targs.path).test_targets)] := by
    rw [restAfterDtgen, hshapeT, List.drop_left]
  refine ⟨⟨?_, hrunC, hunlC, ?_, ?_, ?_⟩, ⟨?_, hrunB, hunlB, ?_, ?_, ?_⟩,
    ⟨?_, hrunT, hunlT, ?_, ?_, ?_, ?_⟩⟩
  · rw [hrestC, hshapeC]
  · intro m hm
    rw [hshapeC] at hm
    rcases List.mem_append.mp hm with h' | h'
    · exact hwarnC m h'
    · rcases hforce : cargs.force && env.pathExists (env.getConfig cargs.path).build_dir <;>
        rcases hfix : (env.getConfig cargs.path).fix_compile_commands <;>
        simp [hforce, hfix] at h'
  · rw [hrestC]
    simp
  · intro p hp
    rw [hrestC] at hp
    rcases hforce : cargs.force && env.pathExists (env.getConfig cargs.path).build_dir <;>
      rcases hfix : (env.getConfig cargs.path).fix_compile_commands <;>
      simp [hforce, hfix] at hp
  · rw [hrestB, hshapeB]
  · intro m hm
    rw [hshapeB] at hm
    rcases List.mem_append.mp hm with h' | h'
    · exact hwarnB m h'
    · simp at h'
  · rw [hrestB]
    simp
  · intro p hp
    rw [hrestB] at hp
    simp at hp
  · rw [hrestT, hshapeT]
  · intro m hm
    rw [hshapeT] at hm
    rcases List.mem_append.mp hm with h' | h'
    · exact hwarnT m h'
    · simp at h'
  · rw [hrestT]
    simp
  · rw [hrestT]
    simp
  · intro p hp
    rw [hrestT] at hp
    simp at hp

/-- Witness for C9: in a concrete `main_cmake` run, the outdated path is
unlinked during the dtgen phase and the `cmake` call happens afterwards. -/
theorem build_commands_dtgen_first_witness :
    Event.unlink "build/stale.hh"
      ∈ (main_dtgen envW
        { path := "proj", files := [], delete_outdated := true, force := false }).1 ∧
    Event.subprocessCall (cmakeCommand envW (envW.getConfig "proj") ⟨"proj", false, false⟩)
      ∈ restAfterDtgen envW "proj" (main_cmake envW ⟨"proj", false, false⟩).1 :=
  ⟨(build_commands_dtgen_first envW ⟨"proj", false, false⟩ ⟨"proj", 1, 2⟩ ⟨"proj", 1, 2⟩
      (by decide) (by decide) (by decide)).1.2.2.1 "build/stale.hh" (by decide),
   (build_commands_dtgen_first envW ⟨"proj", false, false⟩ ⟨"proj", 1, 2⟩ ⟨"proj", 1, 2⟩
      (by decide) (by decide) (by decide)).1.2.2.2.2.1⟩

/-- Every event of a successful nested dtgen trace is one of the dtgen
phase's constructors; in particular `run_dtgen` is only ever called with
`files = None` and `force = False`. -/
theorem mem_nested_dtgen_cases (env : Env) (path : FsPath)
    (hsnd : (main_dtgen env
      { path := path, files := [], delete_outdated := true, force := false }).2 = none)
    (e : Event)
    (he : e ∈ (main_dtgen env
      { path := path, files := [], delete_outdated := true, force := false }).1) :
    (∃ q, e = Event.getConfigRoot q) ∨ (∃ q, e = Event.getConfig q) ∨
    e = Event.runDtgen (env.getConfigRoot path) (env.getConfig path) none false ∨
    (∃ ro co, e = Event.findOutdated ro co) ∨
    (∃ m, e = Event.logInfo m) ∨ (∃ q, e = Event.unlink q) := by
  rw [nested_dtgen_trace env path hsnd] at he
  rcases List.mem_append.mp he with h | h
  · simp only [List.mem_cons, List.not_mem_nil, or_false] at h
    rcases h with h | h | h | h
    · exact Or.inl ⟨_, h⟩
    · exact Or.inr (Or.inl ⟨_, h⟩)
    · exact Or.inr (Or.inr (Or.inl h))
    · exact Or.inr (Or.inr (Or.inr (Or.inl ⟨_, _, h⟩)))
  · obtain ⟨p, _, h | h⟩ := (mem_delete_events_iff _ _).mp h
    · exact Or.inr (Or.inr (Or.inr (Or.inr (Or.inl ⟨_, h⟩))))
    · exact Or.inr (Or.inr (Or.inr (Or.inr (Or.inr ⟨_, h⟩))))

/-- C10: in `main_cmake` the nested dtgen invocation always receives
`force = False` — no trace ever contains a forced `run_dtgen` call, while
the unforced call with no file subset is always present — and `args.force`
controls only the removal of an existing build directory: the `rmtree`
event occurs exactly when `args.force` is set and the build directory
exists. -/
theorem main_cmake_force_semantics (env : Env) (args : MainCmakeArgs) :
    (∀ ro co fs, Event.runDtgen ro co fs true ∉ (main_cmake env args).1) ∧
    Event.runDtgen (env.getConfigRoot args.path) (env.getConfig args.path) none false
      ∈ (main_cmake env args).1 ∧
    ((main_dtgen env
        { path := args.path, files := [], delete_outdated := true, force := false }).2 = none →
      (Event.rmtree (env.getConfig args.path).build_dir ∈ (main_cmake env args).1 ↔
        args.force = true ∧
          env.pathExists (env.getConfig args.path).build_dir = true)) := by
  have hres : resolveFiles env.isFile
      (MainDtgenArgs.mk args.path [] true false).files = .ok none := rfl
  rcases hraise : env.dtgenRaises (env.getConfigRoot args.path) (env.getConfig args.path)
      none false
  · -- run_dtgen does not raise
    have hdt := main_dtgen_success_eq env
      { path := args.path, files := [], delete_outdated := true, force := false } none hres hraise
    have hsnd : (main_dtgen env
        { path := args.path, files := [], delete_outdated := true, force := false }).2
        = none := by rw [hdt]
    have hshape := congrArg Prod.fst (main_cmake_success_eq env args hsnd)
    simp only at hshape
    refine ⟨?_, ?_, ?_⟩
    · intro ro co fs hmem
      rw [hshape] at hmem
      rcases List.mem_append.mp hmem with h' | h'
      · rcases mem_nested_dtgen_cases env args.path hsnd _ h' with
          ⟨q, h⟩ | ⟨q, h⟩ | h | ⟨ro', co', h⟩ | ⟨m, h⟩ | ⟨q, h⟩ <;> simp at h
      · rcases hforce : args.force && env.pathExists (env.getConfig args.path).build_dir <;>
          rcases hfix : (env.getConfig args.path).fix_compile_commands <;>
          simp [hforce, hfix] at h'
    · rw [hshape]
      apply List.mem_append_left
      rw [nested_dtgen_trace env args.path hsnd]
      simp
    · intro _
      constructor
      · intro hmem
        rw [hshape] at hmem
        rcases List.mem_append.mp hmem with h' | h'
        · rcases mem_nested_dtgen_cases env args.path hsnd _ h' with
            ⟨q, h⟩ | ⟨q, h⟩ | h | ⟨ro', co', h⟩ | ⟨m, h⟩ | ⟨q, h⟩ <;> simp at h
        · by_cases hcond : (args.force && env.pathExists
              (env.getConfig args.path).build_dir) = true
          · simpa using hcond
          · rw [if_neg hcond] at h'
            rcases hfix : (env.getConfig args.path).fix_compile_commands <;>
              simp [hfix] at h'
      · rintro ⟨hf, hp⟩
        rw [hshape]
        apply List.mem_append_right
        have hcond : (args.force && env.pathExists
            (env.getConfig args.path).build_dir) = true := by rw [hf, hp]; rfl
        simp [hcond]
  · -- run_dtgen raises
    have hdtr := main_dtgen_raise_eq env
      { path := args.path, files := [], delete_outdated := true, force := false } none hres hraise
    have hcm := main_cmake_error_eq env args .dtgenError (by rw [hdtr])
    refine ⟨?_, ?_, ?_⟩
    · intro ro co fs hmem
      rw [congrArg Prod.fst hcm] at hmem
      simp only at hmem
      rw [congrArg Prod.fst hdtr] at hmem
      simp at hmem
    · rw [congrArg Prod.fst hcm]
      simp only
      rw [congrArg Prod.fst hdtr]
      simp
    · intro hsnd
      rw [hdtr] at hsnd
      simp at hsnd

/-- Witness for C10: with `force = true` and an existing build directory
the removal event occurs; the trace never contains a forced dtgen call. -/
theorem main_cmake_force_semantics_witness :
    Event.rmtree (envW.getConfig "proj").build_dir
      ∈ (main_cmake envW ⟨"proj", true, false⟩).1 :=
  ((main_cmake_force_semantics envW ⟨"proj", true, false⟩).2.2 (by decide)).mpr
    ⟨rfl, by decide⟩

/-- The non-propagating staleness conditions, spelled out. -/
theorem ownStale_iff (st : DtgenState) (d : Nat) :
    ownStale st d = true ↔
      (st.record d = none ∨ st.record d ≠ some (st.fingerprint d) ∨
        st.outputsPresent d = false) := by
  unfold ownStale
  rcases h : st.record d with _ | r
  · simp
  · simp [h]

/-- Staleness to depth `fuel` holds exactly when some file reachable within
`fuel` reference steps is itself stale on its own account. -/
theorem staleWithin_iff (st : DtgenState) :
    ∀ fuel d, staleWithin st fuel d = true ↔
      ∃ e, reachesWithin st.refs fuel d e = true ∧ ownStale st e = true := by
  intro fuel
  induction fuel with
  | zero =>
    intro d
    simp [staleWithin, reachesWithin]
  | succ n ih =>
    intro d
    simp only [staleWithin, reachesWithin, Bool.or_eq_true, List.any_eq_true]
    constructor
    · rintro (h | ⟨e, he, hst⟩)
      · exact ⟨d, Or.inl (by simp), h⟩
      · obtain ⟨f, hreach, hown⟩ := (ih e).mp hst
        exact ⟨f, Or.inr ⟨e, he, hreach⟩, hown⟩
    · rintro ⟨e, hd | ⟨m, hm, hreach⟩, hown⟩
      · left
        rw [show d = e from by simpa using hd]
        exact hown
      · right
        exact ⟨m, hm, (ih m).mpr ⟨e, hreach, hown⟩⟩

/-- C4: the Staleness Oracle returns `Stale` when `force` is set, and
otherwise exactly when some DefinitionFile reachable through (reflexive,
transitive) reference edges has no fingerprint record, a changed
fingerprint, or a missing OutputTarget — i.e. when the file itself falls
under one of those conditions or some transitively referenced file is
itself stale. -/
theorem check_matches_staleness_policy (st : DtgenState) (force : Bool) (fuel : Nat)
    (d : Nat) :
    check st force fuel d = true ↔
      force = true ∨ ∃ e, reachesWithin st.refs fuel d e = true ∧
        (st.record e = none ∨ st.record e ≠ some (st.fingerprint e) ∨
          st.outputsPresent e = false) := by
  unfold check
  simp only [Bool.or_eq_true, staleWithin_iff, ownStale_iff]

/-- If `a` is the unique element satisfying `p`, `find?` returns it. -/
theorem find?_eq_some_of_unique {α : Type} (p : α → Bool) (l : List α) (a : α)
    (ha : a ∈ l) (hpa : p a = true) (huniq : ∀ b ∈ l, p b = true → b = a) :
    l.find? p = some a := by
  induction l with
  | nil => cases ha
  | cons x xs ih =>
    by_cases hx : p x = true
    · rw [List.find?_cons_of_pos _ hx, huniq x (by simp) hx]
    · rw [List.find?_cons_of_neg _ (by simpa using hx)]
      refine ih ?_ (fun b hb hpb => huniq b (by simp [hb]) hpb)
      rcases List.mem_cons.mp ha with h | h
      · exact absurd (h ▸ hpa) hx
      · exact h

/-- `find?` is invariant under permutation when at most one element
satisfies the predicate. -/
theorem find?_eq_of_perm {α : Type} (p : α → Bool) (l1 l2 : List α)
    (hperm : l1.Perm l2)
    (huniq : ∀ a ∈ l1, ∀ b ∈ l1, p a = true → p b = true → a = b) :
    l1.find? p = l2.find? p := by
  rcases h : l1.find? p with _ | a
  · symm
    rw [List.find?_eq_none] at h ⊢
    exact fun x hx => h x (hperm.mem_iff.mpr hx)
  · symm
    have ha : a ∈ l1 := List.mem_of_find?_eq_some h
    exact find?_eq_some_of_unique p l2 a (hperm.mem_iff.mp ha) (List.find?_some h)
      (fun b hb hpb =>
        huniq b (hperm.mem_iff.mpr hb) a ha hpb (List.find?_some h))

/-- Rendering a type-reference only depends on the resolved-reference set,
not on its enumeration order, as long as qualified names are unambiguous. -/
theorem renderRef_perm (refs1 refs2 : List TypeSpec) (hperm : refs1.Perm refs2)
    (hnodup : (refs1.map specName).Nodup) (t : TypeRef) :
    renderRef refs1 t = renderRef refs2 t := by
  have hinj : ∀ a ∈ refs1, ∀ b ∈ refs1, specName a = specName b → a = b :=
    List.inj_on_of_nodup_map hnodup
  induction t with
  | primitive n => rfl
  | named q =>
    simp only [renderRef]
    rw [find?_eq_of_perm _ _ _ hperm ?_]
    intro a ha b hb hpa hpb
    exact hinj a ha b hb (by rw [show specName a = q from by simpa using hpa,
      show specName b = q from by simpa using hpb])
  | seqOf t ih => simp only [renderRef, ih]
  | optionalOf t ih => simp only [renderRef, ih]

/-- The Emitter's output depends only on the TypeSpec and the
resolved-reference set. -/
theorem emit_perm (spec : TypeSpec) (refs1 refs2 : List TypeSpec)
    (hperm : refs1.Perm refs2) (hnodup : (refs1.map specName).Nodup) :
    emit spec refs1 = emit spec refs2 := by
  cases spec with
  | struct n fields =>
    simp only [emit]
    have h : ∀ f ∈ fields, "  " ++ renderRef refs1 f.2 ++ " " ++ f.1 ++ ";\n"
        = "  " ++ renderRef refs2 f.2 ++ " " ++ f.1 ++ ";\n" :=
      fun f _ => by rw [renderRef_perm refs1 refs2 hperm hnodup]
    rw [List.map_congr_left h]
  | variant n alts =>
    simp only [emit]
    have h : ∀ a ∈ alts, "  /* " ++ a.1 ++ " */ " ++ renderRef refs1 a.2 ++ ",\n"
        = "  /* " ++ a.1 ++ " */ " ++ renderRef refs2 a.2 ++ ",\n" :=
      fun a _ => by rw [renderRef_perm refs1 refs2 hperm hnodup]
    rw [List.map_congr_left h]
  | enum n labels => rfl

/-- C7: for a fixed TypeSpec and a fixed resolved-reference set (given up
to enumeration order, with unambiguous names), any two Emitter invocations
produce identical output bytes, whatever the process environment
(filesystem ordering, environment variables) of each invocation. -/
theorem emitter_deterministic (procEnv1 procEnv2 : ProcessEnv) (spec : TypeSpec)
    (refs1 refs2 : List TypeSpec) (hperm : refs1.Perm refs2)
    (hnodup : (refs1.map specName).Nodup) :
    emitInEnv procEnv1 spec refs1 = emitInEnv procEnv2 spec refs2 :=
  emit_perm spec refs1 refs2 hperm hnodup

/-- Witness for C7: two invocations in different process environments, with
the resolved references enumerated in different orders, emit identical
bytes. -/
theorem emitter_deterministic_witness :
    ([TypeSpec.struct "Point" [("x", TypeRef.primitive "int")],
      TypeSpec.enum "Color" ["red", "green"]].Perm
     [TypeSpec.enum "Color" ["red", "green"],
      TypeSpec.struct "Point" [("x", TypeRef.primitive "int")]]) ∧
    emitInEnv ⟨["b.toml", "a.toml"], [("LANG", "C")]⟩
      (TypeSpec.struct "Line" [("p", TypeRef.named "Point")])
      [TypeSpec.struct "Point" [("x", TypeRef.primitive "int")],
       TypeSpec.enum "Color" ["red", "green"]] =
    emitInEnv ⟨["a.toml", "b.toml"], []⟩
      (TypeSpec.struct "Line" [("p", TypeRef.named "Point")])
      [TypeSpec.enum "Color" ["red", "green"],
       TypeSpec.struct "Point" [("x", TypeRef.primitive "int")]] :=
  ⟨by decide,
   emitter_deterministic ⟨["b.toml", "a.toml"], [("LANG", "C")]⟩ ⟨["a.toml", "b.toml"], []⟩
     (TypeSpec.struct "Line" [("p", TypeRef.named "Point")])
     _ _ (by decide) (by decide)⟩

/-- Regenerating a file makes it own-fresh: its record matches its current
fingerprint and its output is on disk. -/
theorem ownStale_regen_self (inp : Inputs) (w : World) (d : Nat) :
    ownStale (stateOf inp (regen inp w d)) d = false := by
  unfold ownStale stateOf regen
  simp

/-- Regenerating one file leaves every other file's staleness unchanged. -/
theorem ownStale_regen_other (inp : Inputs) (w : World) (d e : Nat) (h : d ≠ e) :
    ownStale (stateOf inp (regen inp w e)) d = ownStale (stateOf inp w) d := by
  unfold ownStale stateOf regen
  simp [h]

/-- After folding the regeneration step over a worklist, a file is
own-fresh provided it either already was, or it is on the worklist with a
`Regenerated` decision. -/
theorem foldl_regen_ownStale (inp : Inputs) (w0 : World) (force : Bool) (fuel : Nat) :
    ∀ (l : List Nat) (acc : World) (d : Nat),
      (ownStale (stateOf inp acc) d = false ∨
        (d ∈ l ∧ resultFor inp w0 force fuel d = .regenerated)) →
      ownStale (stateOf inp
        (l.foldl (fun a e => if resultFor inp w0 force fuel e = .regenerated
          then regen inp a e else a) acc)) d = false := by
  intro l
  induction l with
  | nil =>
    intro acc d h
    rcases h with h | ⟨h, _⟩
    · exact h
    · cases h
  | cons x xs ih =>
    intro acc d h
    rw [List.foldl_cons]
    by_cases hx : resultFor inp w0 force fuel x = .regenerated
    · rw [if_pos hx]
      apply ih
      by_cases hdx : d = x
      · subst hdx
        exact Or.inl (ownStale_regen_self inp acc d)
      · rcases h with h | ⟨hmem, hres⟩
        · exact Or.inl (by rw [ownStale_regen_other inp acc d x hdx]; exact h)
        · rcases List.mem_cons.mp hmem with h' | h'
          · exact absurd h' hdx
          · exact Or.inr ⟨h', hres⟩
    · rw [if_neg hx]
      apply ih
      rcases h with h | ⟨hmem, hres⟩
      · exact Or.inl h
      · rcases List.mem_cons.mp hmem with h' | h'
        · subst h'
          exact absurd hres hx
        · exact Or.inr ⟨h', hres⟩

/-- After folding the regeneration step, a file's on-disk output is its
freshly emitted bytes provided it is on the worklist with a `Regenerated`
decision, or already held those bytes. -/
theorem foldl_regen_output (inp : Inputs) (w0 : World) (force : Bool) (fuel : Nat) :
    ∀ (l : List Nat) (acc : World) (d : Nat),
      (acc.output d = some (emitFor inp d) ∨
        (d ∈ l ∧ resultFor inp w0 force fuel d = .regenerated)) →
      (l.foldl (fun a e => if resultFor inp w0 force fuel e = .regenerated
        then regen inp a e else a) acc).output d = some (emitFor inp d) := by
  intro l
  induction l with
  | nil =>
    intro acc d h
    rcases h with h | ⟨h, _⟩
    · exact h
    · cases h
  | cons x xs ih =>
    intro acc d h
    rw [List.foldl_cons]
    by_cases hx : resultFor inp w0 force fuel x = .regenerated
    · rw [if_pos hx]
      apply ih
      by_cases hdx : d = x
      · subst hdx
        exact Or.inl (by unfold regen; simp)
      · rcases h with h | ⟨hmem, hres⟩
        · exact Or.inl (by unfold regen; simp [hdx]; exact h)
        · rcases List.mem_cons.mp hmem with h' | h'
          · exact absurd h' hdx
          · exact Or.inr ⟨h', hres⟩
    · rw [if_neg hx]
      apply ih
      rcases h with h | ⟨hmem, hres⟩
      · exact Or.inl h
      · rcases List.mem_cons.mp hmem with h' | h'
        · subst h'
          exact absurd hres hx
        · exact Or.inr ⟨h', hres⟩

/-- Folding a guarded step whose guard is everywhere false changes nothing. -/
theorem foldl_if_noop {α β : Type} (p : β → Prop) [DecidablePred p] (f : α → β → α) :
    ∀ (l : List β) (acc : α), (∀ d ∈ l, ¬p d) →
      l.foldl (fun a e => if p e then f a e else a) acc = acc := by
  intro l
  induction l with
  | nil => intro acc _; rfl
  | cons x xs ih =>
    intro acc h
    rw [List.foldl_cons, if_neg (h x (by simp))]
    exact ih acc (fun d hd => h d (by simp [hd]))

/-- In a reference-closed, everywhere-parsable file set no file fails. -/
theorem failedWithin_false (inp : Inputs)
    (hclosed : ∀ d ∈ inp.files, ∀ e ∈ inp.refs d, e ∈ inp.files)
    (hparse : ∀ d ∈ inp.files, inp.parseOk d = true) :
    ∀ fuel d, d ∈ inp.files → failedWithin inp fuel d = false := by
  intro fuel
  induction fuel with
  | zero =>
    intro d hd
    simp [failedWithin, hparse d hd]
  | succ n ih =>
    intro d hd
    simp only [failedWithin, Bool.or_eq_false_iff]
    refine ⟨by simp [hparse d hd], ?_⟩
    rw [List.any_eq_false]
    intro e he
    simp [ih e (hclosed d hd e he)]

/-- In a reference-closed set of own-fresh files, no staleness propagates. -/
theorem staleWithin_false_of_ownFresh (st : DtgenState) (S : List Nat)
    (hclosed : ∀ d ∈ S, ∀ e ∈ st.refs d, e ∈ S)
    (hfresh : ∀ d ∈ S, ownStale st d = false) :
    ∀ fuel d, d ∈ S → staleWithin st fuel d = false := by
  intro fuel
  induction fuel with
  | zero =>
    intro d hd
    simp [staleWithin, hfresh d hd]
  | succ n ih =>
    intro d hd
    simp only [staleWithin, Bool.or_eq_false_iff]
    refine ⟨hfresh d hd, ?_⟩
    rw [List.any_eq_false]
    intro e he
    simp [ih e (hclosed d hd e he)]

/-- A file that is not stale to some depth is own-fresh. -/
theorem ownStale_false_of_staleWithin (st : DtgenState) (fuel : Nat) (d : Nat)
    (h : staleWithin st fuel d = false) : ownStale st d = false := by
  cases fuel with
  | zero => exact h
  | succ n =>
    simp only [staleWithin, Bool.or_eq_false_iff] at h
    exact h.1

/-- After one engine run over a reference-closed, everywhere-parsable file
set, every file is own-fresh. -/
theorem run_ownFresh (inp : Inputs) (w : World) (fuel : Nat)
    (hclosed : ∀ d ∈ inp.files, ∀ e ∈ inp.refs d, e ∈ inp.files)
    (hparse : ∀ d ∈ inp.files, inp.parseOk d = true) :
    ∀ d ∈ inp.files,
      ownStale (stateOf inp (runEngine inp false fuel w).2.1) d = false := by
  intro d hd
  unfold runEngine
  simp only
  apply foldl_regen_ownStale
  by_cases hc : resultFor inp w false fuel d = .regenerated
  · exact Or.inr ⟨hd, hc⟩
  · left
    have hfail := failedWithin_false inp hclosed hparse fuel d hd
    unfold resultFor at hc
    rw [hfail, if_neg (by simp)] at hc
    by_cases hch : check (stateOf inp w) false fuel d = true
    · rw [if_pos hch] at hc
      exact absurd rfl hc
    · have hch' : staleWithin (stateOf inp w) fuel d = false := by
        have := (Bool.not_eq_true _).mp hch
        unfold check at this
        simpa using this
      exact ownStale_false_of_staleWithin _ fuel d hch'

/-- An unforced run over files that neither fail nor are stale reports
`Skipped(Fresh)` everywhere and does not touch the world. -/
theorem run_skips_when_fresh (inp : Inputs) (w1 : World) (fuel : Nat)
    (hfail : ∀ d ∈ inp.files, failedWithin inp fuel d = false)
    (hstale : ∀ d ∈ inp.files, staleWithin (stateOf inp w1) fuel d = false) :
    (runEngine inp false fuel w1).1 =
      inp.files.map (fun d => (d, GenResult.skippedFresh)) ∧
    (runEngine inp false fuel w1).2.1 = w1 := by
  have hres2 : ∀ d ∈ inp.files,
      resultFor inp w1 false fuel d = .skippedFresh := by
    intro d hd
    unfold resultFor
    rw [hfail d hd, if_neg (by simp)]
    rw [if_neg (by unfold check; simp [hstale d hd])]
  constructor
  · unfold runEngine
    simp only
    exact List.map_congr_left (fun d hd => by rw [hres2 d hd])
  · unfold runEngine
    simp only
    exact foldl_if_noop _ _ inp.files _ (fun d hd => by rw [hres2 d hd]; simp)

/-- C5: with `force = false` and no input changes, a second Generation
Engine run immediately after a first one reports `Skipped(Fresh)` for every
DefinitionFile and leaves the on-disk outputs and fingerprint records
byte-identical to the state after the first run (given a reference-closed,
everywhere-parsable definition store). -/
theorem generation_idempotent (inp : Inputs) (w0 : World) (fuel : Nat)
    (hclosed : ∀ d ∈ inp.files, ∀ e ∈ inp.refs d, e ∈ inp.files)
    (hparse : ∀ d ∈ inp.files, inp.parseOk d = true) :
    (runEngine inp false fuel (runEngine inp false fuel w0).2.1).1 =
      inp.files.map (fun d => (d, GenResult.skippedFresh)) ∧
    (runEngine inp false fuel (runEngine inp false fuel w0).2.1).2.1 =
      (runEngine inp false fuel w0).2.1 := by
  have hfresh : ∀ d ∈ inp.files,
      ownStale (stateOf inp (runEngine inp false fuel w0).2.1) d = false :=
    run_ownFresh inp w0 fuel hclosed hparse
  exact run_skips_when_fresh inp (runEngine inp false fuel w0).2.1 fuel
    (fun d hd => failedWithin_false inp hclosed hparse fuel d hd)
    (fun d hd => staleWithin_false_of_ownFresh _ inp.files hclosed hfresh fuel d hd)

/-- A concrete two-file definition store (a base type and a dependent) used
by the engine witnesses. -/
def inpW : Inputs :=
  { files := [0, 1]
    content := fun d => if d = 0 then "struct Point x int" else "struct Line p Point"
    spec := fun d =>
      if d = 0 then TypeSpec.struct "Point" [("x", TypeRef.primitive "int")]
      else TypeSpec.struct "Line" [("p", TypeRef.named "Point")]
    refs := fun d => if d = 1 then [0] else []
    parseOk := fun _ => true }

/-- The empty initial world: no records, no outputs on disk. -/
def w0W : World := { record := fun _ => none, output := fun _ => none }

/-- Witness for C5: on the concrete store, the second run reports
`Skipped(Fresh)` everywhere and leaves the world unchanged. -/
theorem generation_idempotent_witness :
    (∀ d ∈ inpW.files, ∀ e ∈ inpW.refs d, e ∈ inpW.files) ∧
    (runEngine inpW false 2 (runEngine inpW false 2 w0W).2.1).1 =
      inpW.files.map (fun d => (d, GenResult.skippedFresh)) :=
  ⟨by decide, (generation_idempotent inpW w0W 2 (by decide) (by decide)).1⟩

/-- A file fails exactly when some file it transitively references (to the
given depth, itself included) fails to parse. -/
theorem failedWithin_iff (inp : Inputs) :
    ∀ fuel d, failedWithin inp fuel d = true ↔
      ∃ e, reachesWithin inp.refs fuel d e = true ∧ inp.parseOk e = false := by
  intro fuel
  induction fuel with
  | zero =>
    intro d
    simp [failedWithin, reachesWithin]
  | succ n ih =>
    intro d
    simp only [failedWithin, reachesWithin, Bool.or_eq_true, List.any_eq_true]
    constructor
    · rintro (h | ⟨e, he, hst⟩)
      · exact ⟨d, Or.inl (by simp), by simpa using h⟩
      · obtain ⟨f, hreach, hp⟩ := (ih e).mp hst
        exact ⟨f, Or.inr ⟨e, he, hreach⟩, hp⟩
    · rintro ⟨e, hd | ⟨m, hm, hreach⟩, hp⟩
      · left
        rw [show d = e from by simpa using hd]
        simp [hp]
      · right
        exact ⟨m, hm, (ih m).mpr ⟨e, hreach, hp⟩⟩

/-- `isFailed` detects exactly the `Failed` outcome. -/
theorem isFailed_iff (r : GenResult) : r.isFailed = true ↔ r = .failed := by
  cases r <;> simp [GenResult.isFailed]

/-- C6: an error in one DefinitionFile does not abort the run: a file none
of whose transitively referenced files fails to parse is never `Failed`, it
still appears in the run's results, and when stale it is regenerated with
its output written; and the run's overall status is a failure exactly when
some file's result is `Failed`. -/
theorem engine_fail_at_end (inp : Inputs) (w : World) (force : Bool) (fuel : Nat)
    (d : Nat) (hd : d ∈ inp.files)
    (hok : ∀ e, reachesWithin inp.refs fuel d e = true → inp.parseOk e = true) :
    resultFor inp w force fuel d ≠ .failed ∧
    (d, resultFor inp w force fuel d) ∈ (runEngine inp force fuel w).1 ∧
    (check (stateOf inp w) force fuel d = true →
      resultFor inp w force fuel d = .regenerated ∧
      ((runEngine inp force fuel w).2.1).output d = some (emitFor inp d)) ∧
    ((runEngine inp force fuel w).2.2 = true ↔
      ∃ e ∈ inp.files, resultFor inp w force fuel e = .failed) := by
  have hfail : failedWithin inp fuel d = false := by
    rw [← Bool.not_eq_true, failedWithin_iff]
    rintro ⟨e, hre, hpe⟩
    rw [hok e hre] at hpe
    cases hpe
  refine ⟨?_, ?_, ?_, ?_⟩
  · unfold resultFor
    rw [hfail, if_neg (by simp)]
    split <;> simp
  · unfold runEngine
    simp only
    exact List.mem_map.mpr ⟨d, hd, rfl⟩
  · intro hcheck
    have hreg : resultFor inp w force fuel d = .regenerated := by
      unfold resultFor
      rw [hfail, if_neg (by simp), if_pos hcheck]
    refine ⟨hreg, ?_⟩
    unfold runEngine
    simp only
    exact foldl_regen_output inp w force fuel inp.files w d (Or.inr ⟨hd, hreg⟩)
  · unfold runEngine
    simp only [List.any_eq_true, List.mem_map]
    constructor
    · rintro ⟨pr, ⟨e, he, hpr⟩, hf⟩
      refine ⟨e, he, ?_⟩
      rw [← hpr] at hf
      exact (isFailed_iff _).mp hf
    · rintro ⟨e, he, hf⟩
      exact ⟨(e, resultFor inp w force fuel e), ⟨e, he, rfl⟩, (isFailed_iff _).mpr hf⟩

/-- The concrete store with a parse failure in file 1: files 0 and 2 do not
reference it. -/
def inpF : Inputs :=
  { files := [0, 1, 2]
    content := fun d => if d = 0 then "struct A" else if d = 1 then "!!garbage" else "struct C"
    spec := fun d =>
      if d = 0 then TypeSpec.struct "A" []
      else if d = 1 then TypeSpec.struct "B" []
      else TypeSpec.struct "C" []
    refs := fun _ => []
    parseOk := fun d => d != 1 }

/-- Witness for C6: with file 1 failing to parse, file 0 is still
regenerated from the empty world and the overall status is a failure. -/
theorem engine_fail_at_end_witness :
    resultFor inpF w0W false 1 0 ≠ .failed ∧
    ((runEngine inpF false 1 w0W).2.2 = true ↔
      ∃ e ∈ inpF.files, resultFor inpF w0W false 1 e = .failed) := by
  have hok : ∀ e, reachesWithin inpF.refs 1 0 e = true → inpF.parseOk e = true := by
    intro e he
    have h0 : 0 = e := by simpa [inpF, reachesWithin] using he
    subst h0
    decide
  exact ⟨(engine_fail_at_end inpF w0W false 1 0 (by decide) hok).1,
    (engine_fail_at_end inpF w0W false 1 0 (by decide) hok).2.2.2⟩
